import Mathlib

/-!
Shallow embedding of the transactional ledger core of the
`investements_accounts` Django application (`src/accounts/`).

Monetary values are modelled as integers counting cents: the source stores
`DecimalField(..., decimal_places=2)` values and performs exact decimal
arithmetic on them, which integer cents capture exactly
(100.00 is `10000`, 60.00 is `6000`, and so on).
-/

namespace InvestAccounts

/-- Transaction type, mirroring `Transaction.TRANSACTION_TYPE_CHOICES`
(`models.py`): `debit` or `credit`. -/
inductive TxType where
  | debit
  | credit
deriving DecidableEq, Repr

/-- The error taxonomy raised by the validation and creation paths
(`ValidationError` messages in `models.py` / `serializers.py`,
`get_object_or_404` in `views.py`). -/
inductive LedgerError where
  | invalidAmount
  | insufficientFunds
  | duplicate
  | notFound
deriving DecidableEq, Repr

/-- A committed transaction record: the `amount` and `transaction_type`
columns of the `Transaction` model (`models.py`). -/
structure Tx where
  amount : Int
  ttype : TxType
deriving DecidableEq, Repr

/-- The state of one `UserAccount` together with its transaction history:
the `balance` column plus the rows of `Transaction` owned by the account,
in creation order. -/
structure AccountState where
  balance : Int
  ledger : List Tx
deriving DecidableEq, Repr

/-- `Transaction.clean` (`models.py` lines 132-144): rejects a non-positive
`amount` first, then rejects a debit whose amount exceeds the balance the
instance holds in memory. -/
def clean (balance amount : Int) (t : TxType) : Except LedgerError Unit :=
  if amount ≤ 0 then .error .invalidAmount
  else if t = .debit ∧ balance < amount then .error .insufficientFunds
  else .ok ()

/-- The balance written by `Transaction.save` (`models.py` lines 157-160):
`F(balance) - amount` for a debit, `F(balance) + amount` for a credit,
applied to the balance read under the row lock. -/
def newBalance (b a : Int) : TxType → Int
  | .debit => b - a
  | .credit => b + a

/-- `Transaction.save` on a new transaction (`models.py` lines 146-163),
run to completion without interference: inside one atomic block it calls
`clean`, locks the account row, updates the balance with the F-expression,
and inserts the transaction row. A raised `ValidationError` aborts the
atomic block, so the pre-state is returned unchanged alongside the error. -/
def applyTx (s : AccountState) (amount : Int) (t : TxType) :
    AccountState × Except LedgerError Tx :=
  match clean s.balance amount t with
  | .error e => (s, .error e)
  | .ok _ =>
      (⟨newBalance s.balance amount t, s.ledger ++ [⟨amount, t⟩]⟩,
       .ok ⟨amount, t⟩)

/-- `TransactionDetailView.put`/`patch` followed by `perform_update`
(`views.py` lines 212-259): the serializer re-validates the new amount and
type against the current balance, then `serializer.save()` calls
`Transaction.save` on the existing row, which runs `clean`, applies the
F-expression for the NEW amount to the balance (the old amount is never
reversed), and updates the row in place. -/
def updateTx (s : AccountState) (i : Nat) (amount : Int) (t : TxType) :
    AccountState × Except LedgerError Tx :=
  if i < s.ledger.length then
    match clean s.balance amount t with
    | .error e => (s, .error e)
    | .ok _ =>
        (⟨newBalance s.balance amount t, s.ledger.set i ⟨amount, t⟩⟩,
         .ok ⟨amount, t⟩)
  else (s, .error .notFound)

/-- `TransactionDetailView.delete` / `perform_destroy` (`views.py` lines
249-263): `instance.delete()` removes the row and touches nothing else —
in particular the account balance is not recomputed. -/
def deleteTx (s : AccountState) (i : Nat) :
    AccountState × Except LedgerError Unit :=
  if i < s.ledger.length then
    (⟨s.balance, s.ledger.eraseIdx i⟩, .ok ())
  else (s, .error .notFound)

/-- Account states reachable from a fresh account (balance 0 by default,
or any non-negative opening balance, and no transactions) by sequences of
the transaction operations `applyTx`, `updateTx`, `deleteTx`. Each step
keeps the post-state of the operation, which equals the pre-state whenever
the operation reports an error. -/
inductive Reachable : AccountState → Prop where
  | init (b : Int) (h : 0 ≤ b) : Reachable ⟨b, []⟩
  | applyStep (s : AccountState) (a : Int) (t : TxType) :
      Reachable s → Reachable (applyTx s a t).1
  | updateStep (s : AccountState) (i : Nat) (a : Int) (t : TxType) :
      Reachable s → Reachable (updateTx s i a t).1
  | deleteStep (s : AccountState) (i : Nat) :
      Reachable s → Reachable (deleteTx s i).1

/-! ### Concurrent execution of `Transaction.save`

`Transaction.save` validates with `clean` against the balance its
in-memory `user_account` carries — read when the request fetched the
account, before `select_for_update` acquires the row lock. Only the
commit section (locked fresh read, F-expression write, row insert) is
serialized by the lock. A request is therefore a two-phase program:
a validation step that reads the database balance current at that moment,
and an atomic commit step. -/

/-- Progress of one in-flight transaction request. -/
inductive Phase where
  | start
  | validated
  | committed
  | failed
deriving DecidableEq, Repr

/-- A transaction request: the (amount, type) pair a caller submits. -/
structure Req where
  amount : Int
  ttype : TxType
deriving DecidableEq, Repr

/-- Validation phase of `Transaction.save`: `clean` runs against the
balance currently in the database (the value the request's in-memory
`user_account` was populated with), before the row lock is taken. -/
def validateStep (r : Req) (db : AccountState) (p : Phase) : Phase :=
  if p = .start then
    match clean db.balance r.amount r.ttype with
    | .ok _ => .validated
    | .error _ => .failed
  else p

/-- Commit phase of `Transaction.save`: under `select_for_update`, the
F-expression applies the delta to the freshly read balance and the
transaction row is inserted; the lock makes this step atomic. It only
runs for a request whose validation already passed. -/
def commitStep (r : Req) (db : AccountState) (p : Phase) :
    AccountState × Phase :=
  if p = .validated then
    (⟨newBalance db.balance r.amount r.ttype, db.ledger ++ [⟨r.amount, r.ttype⟩]⟩,
     .committed)
  else (db, p)

/-- System state for two concurrent requests against one account. -/
structure ConcSys where
  db : AccountState
  p1 : Phase
  p2 : Phase
deriving DecidableEq, Repr

/-- The interleaving in which both requests pass validation before either
commits: validate 1, validate 2, commit 1, commit 2. Every step is a step
the code can take, since the lock only serializes the commit sections. -/
def racyRun (r1 r2 : Req) (init : AccountState) : ConcSys :=
  let q1 := validateStep r1 init .start
  let q2 := validateStep r2 init .start
  let (db1, q1c) := commitStep r1 init q1
  let (db2, q2c) := commitStep r2 db1 q2
  ⟨db2, q1c, q2c⟩

/-! ### Account creation and account numbers -/

/-- Python `f-string` `f"{n:04}"` (`models.py` line 94): decimal digits of
`n`, zero-padded on the left to at least four characters. -/
def pad4 (n : Nat) : String :=
  let s := Nat.repr n
  if s.length < 4 then String.mk (List.replicate (4 - s.length) '0') ++ s
  else s

/-- Python `int(s[-4:])` on a digit string (`models.py` line 90): the
numeric value of the last four characters. -/
def lastFourNat (s : String) : Nat :=
  let cs := s.toList
  (cs.drop (cs.length - 4)).foldl (fun a c => 10 * a + (c.toNat - 48)) 0

/-- `existing_accounts.order_by(-account_number).first()` (`models.py`
line 89): the greatest account-number string among the existing accounts
of the same (user, account type) pair. -/
def maxAccountNumber : List String → Option String
  | [] => none
  | x :: xs => some (xs.foldl (fun a b => if a < b then b else a) x)

/-- `UserAccount.generate_account_number` (`models.py` lines 79-97):
`existing` are the account numbers already stored for this
(user, account type) pair; the result is the user id, the account type
id, the creation year and the zero-padded successor of the last
sequence number, concatenated. -/
def generate_account_number (userId typeId year : Nat)
    (existing : List String) : String :=
  let last_sequential :=
    match maxAccountNumber existing with
    | none => 0
    | some a => lastFourNat a
  Nat.repr userId ++ Nat.repr typeId ++ Nat.repr year
    ++ pad4 (last_sequential + 1)

/-- `CreateUserAccountSerializer.validate` + `create` (`serializers.py`
lines 59-81): creating a `UserAccount` fails when the (user, account
type) pair already exists, and otherwise stores the new pair. The store
is the list of (user id, account type id) pairs of existing accounts. -/
def createAccount (store : List (Nat × Nat)) (u t : Nat) :
    List (Nat × Nat) × Except LedgerError Unit :=
  if (u, t) ∈ store then (store, .error .duplicate)
  else (store ++ [(u, t)], .ok ())

/-- Account stores reachable from the empty store by account creation
requests. -/
inductive ReachableStore : List (Nat × Nat) → Prop where
  | init : ReachableStore []
  | createStep (store : List (Nat × Nat)) (u t : Nat) :
      ReachableStore store → ReachableStore (createAccount store u t).1

/-! ### Date-range reporting -/

/-- A transaction row as seen by the admin report: owning user, amount,
type and creation timestamp (`Transaction` joined through
`user_account__user` in `views.py`). -/
structure TxRec where
  userId : Nat
  amount : Int
  ttype : TxType
  createdAt : Nat
deriving DecidableEq, Repr

/-- The filter of `AdminUserTransactionsView.get` (`views.py` lines
305-308): the user's transactions with `created_at` inside the requested
range. -/
def matchesQuery (uid startT endT : Nat) (r : TxRec) : Bool :=
  r.userId = uid ∧ startT ≤ r.createdAt ∧ r.createdAt ≤ endT

/-- `total_balance` of `AdminUserTransactionsView.get` (`views.py` line
310): `aggregate(Sum(amount))` over the filtered transactions, with `or 0`
turning an empty aggregate into 0. The raw `amount` column is summed
whatever the transaction type is. -/
def totalBalance (txs : List TxRec) (uid startT endT : Nat) : Int :=
  ((txs.filter (matchesQuery uid startT endT)).map (fun r => r.amount)).sum

/-- Swaps debit for credit and credit for debit; used to state that the
report never nets by type. -/
def flipType : TxType → TxType
  | .debit => .credit
  | .credit => .debit

/-- A record with its type flipped and everything else intact. -/
def flipRec (r : TxRec) : TxRec :=
  ⟨r.userId, r.amount, flipType r.ttype, r.createdAt⟩

/-! ### Helper lemmas about `clean` and the operations -/

lemma clean_ok_elim {b a : Int} {t : TxType} (h : clean b a t = .ok ()) :
    0 < a ∧ (t = .debit → a ≤ b) := by
  unfold clean at h
  split_ifs at h with h1 h2
  refine ⟨by omega, fun ht => ?_⟩
  by_contra hab
  exact h2 ⟨ht, by omega⟩

lemma clean_insufficient_iff {b a : Int} {t : TxType} (hb : 0 ≤ b) :
    clean b a t = .error .insufficientFunds ↔ t = .debit ∧ b < a := by
  unfold clean
  split_ifs with h1 h2
  · constructor
    · intro h
      injection h with h'
      exact absurd h' (by decide)
    · rintro ⟨-, hlt⟩
      omega
  · exact iff_of_true rfl h2
  · constructor
    · intro h
      simp at h
    · intro hx
      exact absurd hx h2

lemma newBalance_nonneg {b a : Int} {t : TxType} (hb : 0 ≤ b) (ha : 0 < a)
    (hd : t = .debit → a ≤ b) : 0 ≤ newBalance b a t := by
  cases t with
  | debit => have := hd rfl; simp only [newBalance]; omega
  | credit => simp only [newBalance]; omega

lemma applyTx_cases (s : AccountState) (a : Int) (t : TxType) :
    (applyTx s a t).1 = s ∨
      (clean s.balance a t = .ok () ∧
        (applyTx s a t).1.balance = newBalance s.balance a t) := by
  unfold applyTx
  cases hc : clean s.balance a t with
  | error e => exact Or.inl rfl
  | ok u => cases u; exact Or.inr ⟨rfl, rfl⟩

lemma updateTx_cases (s : AccountState) (i : Nat) (a : Int) (t : TxType) :
    (updateTx s i a t).1 = s ∨
      (clean s.balance a t = .ok () ∧
        (updateTx s i a t).1.balance = newBalance s.balance a t) := by
  unfold updateTx
  split
  · cases hc : clean s.balance a t with
    | error e => exact Or.inl rfl
    | ok u => cases u; exact Or.inr ⟨rfl, rfl⟩
  · exact Or.inl rfl

lemma deleteTx_balance (s : AccountState) (i : Nat) :
    (deleteTx s i).1.balance = s.balance := by
  unfold deleteTx
  split <;> rfl

/-! ### Claim theorems -/

/-- C1: for every call to `apply` (`Transaction.save`) that returns an
error, the owning account's balance is unchanged and no transaction
record exists for that call: error and commit are mutually exclusive,
with no partially-mutated state. -/
theorem apply_error_atomicity (s : AccountState) (a : Int) (t : TxType)
    (e : LedgerError) (h : (applyTx s a t).2 = .error e) :
    (applyTx s a t).1.balance = s.balance ∧
    (applyTx s a t).1.ledger = s.ledger := by
  unfold applyTx at *
  cases hc : clean s.balance a t with
  | error e' =>
      exact ⟨rfl, rfl⟩
  | ok u =>
      rw [hc] at h
      exact absurd h (by simp)

theorem apply_error_atomicity_witness :
    (applyTx ⟨100000, []⟩ 150000 TxType.debit).1.balance = 100000 ∧
    (applyTx ⟨100000, []⟩ 150000 TxType.debit).1.ledger = [] :=
  apply_error_atomicity ⟨100000, []⟩ 150000 TxType.debit
    .insufficientFunds rfl

/-- C2: in every state reachable from a fresh account (balance 0 or any
non-negative opening balance) via any sequence of apply, update and
delete operations, the account's balance is non-negative. -/
theorem reachable_balance_nonneg (s : AccountState) (h : Reachable s) :
    0 ≤ s.balance := by
  induction h with
  | init b hb => exact hb
  | applyStep s a t _ ih =>
      rcases applyTx_cases s a t with heq | ⟨hc, hbal⟩
      · rw [heq]; exact ih
      · obtain ⟨ha, hd⟩ := clean_ok_elim hc
        rw [hbal]
        exact newBalance_nonneg ih ha hd
  | updateStep s i a t _ ih =>
      rcases updateTx_cases s i a t with heq | ⟨hc, hbal⟩
      · rw [heq]; exact ih
      · obtain ⟨ha, hd⟩ := clean_ok_elim hc
        rw [hbal]
        exact newBalance_nonneg ih ha hd
  | deleteStep s i _ ih =>
      rw [deleteTx_balance]
      exact ih

theorem reachable_balance_nonneg_witness :
    0 ≤ ((applyTx ⟨0, []⟩ 10000 TxType.credit).1).balance :=
  reachable_balance_nonneg _
    (Reachable.applyStep ⟨0, []⟩ 10000 TxType.credit
      (Reachable.init 0 (by decide)))

/-- C3: the code checks debit sufficiency in `Transaction.clean` BEFORE
`select_for_update` acquires the row lock, against the request-time
balance held by the in-memory `user_account`. Starting from balance
100.00, two concurrent debit requests of 60.00 each can both pass
validation and then both commit, leaving balance -20.00 with both debit
records present — the claim's required outcome (exactly one success,
final balance 40.00) is violated. -/
theorem debit_race_overdraws :
    (racyRun ⟨6000, .debit⟩ ⟨6000, .debit⟩ ⟨10000, []⟩).p1 = .committed ∧
    (racyRun ⟨6000, .debit⟩ ⟨6000, .debit⟩ ⟨10000, []⟩).p2 = .committed ∧
    (racyRun ⟨6000, .debit⟩ ⟨6000, .debit⟩ ⟨10000, []⟩).db.balance = -2000 ∧
    (racyRun ⟨6000, .debit⟩ ⟨6000, .debit⟩ ⟨10000, []⟩).db.ledger =
      [⟨6000, .debit⟩, ⟨6000, .debit⟩] := by
  refine ⟨rfl, rfl, by decide, rfl⟩

/-- C4: `apply` fails with `InsufficientFundsError` exactly when the
transaction type is debit and the amount strictly exceeds the current
balance (given a non-negative balance), and on such a failure the state
is unchanged. -/
theorem apply_insufficient_funds_iff (s : AccountState) (a : Int)
    (t : TxType) (hb : 0 ≤ s.balance) :
    ((applyTx s a t).2 = .error .insufficientFunds ↔
      t = .debit ∧ s.balance < a) ∧
    ((applyTx s a t).2 = .error .insufficientFunds →
      (applyTx s a t).1 = s) := by
  constructor
  · unfold applyTx
    cases hc : clean s.balance a t with
    | error e =>
        simp only [Except.error.injEq]
        constructor
        · intro he
          exact (clean_insufficient_iff hb).mp (he ▸ hc)
        · intro hx
          have := (clean_insufficient_iff hb).mpr hx
          rw [hc] at this
          injection this
    | ok u =>
        simp only [reduceCtorEq, false_iff]
        intro hx
        have := (clean_insufficient_iff hb).mpr hx
        rw [hc] at this
        exact absurd this (by simp)
  · intro h
    rcases applyTx_cases s a t with heq | ⟨hc, -⟩
    · exact heq
    · unfold applyTx at h
      rw [hc] at h
      exact absurd h (by simp)

theorem apply_insufficient_funds_iff_witness :
    (applyTx ⟨100000, []⟩ 150000 TxType.debit).2 =
      .error .insufficientFunds ∧
    (applyTx ⟨100000, []⟩ 150000 TxType.debit).1 = ⟨100000, []⟩ := by
  have h := apply_insufficient_funds_iff ⟨100000, []⟩ 150000 TxType.debit
    (by decide)
  exact ⟨h.1.mpr ⟨rfl, by decide⟩, h.2 (h.1.mpr ⟨rfl, by decide⟩)⟩

/-- C5: every successful `apply` sets the new balance to the old balance
plus the amount for a credit and minus the amount for a debit, in exact
fixed-point arithmetic, and appends exactly one transaction record with
that amount and type. -/
theorem apply_success_arith (s : AccountState) (a : Int) (t : TxType)
    (s' : AccountState) (tx : Tx) (h : applyTx s a t = (s', .ok tx)) :
    (t = .debit → s'.balance = s.balance - a) ∧
    (t = .credit → s'.balance = s.balance + a) ∧
    s'.ledger = s.ledger ++ [⟨a, t⟩] ∧
    tx = ⟨a, t⟩ := by
  unfold applyTx at h
  cases hc : clean s.balance a t with
  | error e =>
      rw [hc] at h
      injection h with h1 h2
      exact absurd h2 (by simp)
  | ok u =>
      rw [hc] at h
      injection h with h1 h2
      injection h2 with h2
      subst h1 h2
      refine ⟨fun ht => ?_, fun ht => ?_, rfl, rfl⟩
      · subst ht; rfl
      · subst ht; rfl

theorem apply_success_arith_witness :
    (100000 : Int) + 20000 = 120000 ∧
    ((⟨120000, [⟨20000, TxType.credit⟩]⟩ : AccountState).ledger =
      [] ++ [⟨20000, TxType.credit⟩]) := by
  have h := apply_success_arith ⟨100000, []⟩ 20000 TxType.credit
    ⟨120000, [⟨20000, TxType.credit⟩]⟩ ⟨20000, TxType.credit⟩ rfl
  exact ⟨by norm_num, h.2.2.1⟩

/-- C6: every `apply` request with a non-positive amount fails with
`InvalidAmountError`, and the rejection happens before any mutation of
the balance or the transaction records. -/
theorem apply_nonpositive_invalid (s : AccountState) (a : Int)
    (t : TxType) (h : a ≤ 0) :
    (applyTx s a t).2 = .error .invalidAmount ∧ (applyTx s a t).1 = s := by
  unfold applyTx clean
  rw [if_pos h]
  exact ⟨rfl, rfl⟩

theorem apply_nonpositive_invalid_witness :
    (applyTx ⟨100000, []⟩ 0 TxType.credit).2 = .error .invalidAmount ∧
    (applyTx ⟨100000, []⟩ 0 TxType.credit).1 = ⟨100000, []⟩ :=
  apply_nonpositive_invalid ⟨100000, []⟩ 0 TxType.credit (by decide)

/-- C7 counterexample: updating a committed transaction does NOT leave
the balance unchanged. With balance 900.00 and one committed debit of
100.00, updating that transaction's amount to 150.00 succeeds and moves
the balance to 750.00, because `Transaction.save` re-applies the new
amount through the F-expression on the update path. -/
theorem update_changes_balance_cex :
    (updateTx ⟨90000, [⟨10000, TxType.debit⟩]⟩ 0 15000 TxType.debit).2 =
      .ok ⟨15000, TxType.debit⟩ ∧
    (updateTx ⟨90000, [⟨10000, TxType.debit⟩]⟩ 0 15000 TxType.debit).1.balance
      ≠ 90000 := by
  refine ⟨rfl, by decide⟩

/-- C7 amended: deleting a committed transaction leaves the owning
account's balance unchanged (no recomputation at all), while a
successful update does not reverse the old amount but re-applies the new
amount to the balance: a debit update decreases the balance by the new
amount and a credit update increases it by the new amount. -/
theorem correction_path_balance (s : AccountState) (i : Nat) (a : Int)
    (t : TxType) :
    (deleteTx s i).1.balance = s.balance ∧
    (∀ s' tx, updateTx s i a t = (s', .ok tx) →
      (t = .debit → s'.balance = s.balance - a) ∧
      (t = .credit → s'.balance = s.balance + a)) := by
  refine ⟨deleteTx_balance s i, fun s' tx h => ?_⟩
  unfold updateTx at h
  split at h
  · cases hc : clean s.balance a t with
    | error e =>
        rw [hc] at h
        injection h with h1 h2
        exact absurd h2 (by simp)
    | ok u =>
        rw [hc] at h
        injection h with h1 h2
        subst h1
        refine ⟨fun ht => ?_, fun ht => ?_⟩
        · subst ht; rfl
        · subst ht; rfl
  · injection h with h1 h2
    exact absurd h2 (by simp)

theorem correction_path_balance_witness :
    (deleteTx ⟨90000, [⟨10000, TxType.debit⟩]⟩ 0).1.balance = 90000 ∧
    (updateTx ⟨90000, [⟨10000, TxType.debit⟩]⟩ 0 15000 TxType.debit).1.balance
      = 90000 - 15000 := by
  have h := correction_path_balance ⟨90000, [⟨10000, TxType.debit⟩]⟩ 0
    15000 TxType.debit
  exact ⟨h.1,
    (h.2 ⟨75000, [⟨15000, TxType.debit⟩]⟩ ⟨15000, TxType.debit⟩ rfl).1 rfl⟩

/-- C8: the account number of the first account for a (user, type) pair
is the concatenation of the user id, the type id, the year and the
sequence suffix 0001; when an account already exists, the suffix is that
account's last four digits plus one. Concretely, owner 7, type 3, year
2024 yields 7320240001 first and 7320240002 next. -/
theorem account_number_generation :
    (∀ u t y, generate_account_number u t y [] =
        Nat.repr u ++ Nat.repr t ++ Nat.repr y ++ "0001") ∧
    (∀ u t y a, generate_account_number u t y [a] =
        Nat.repr u ++ Nat.repr t ++ Nat.repr y ++ pad4 (lastFourNat a + 1)) ∧
    generate_account_number 7 3 2024 [] = "7320240001" ∧
    generate_account_number 7 3 2024 ["7320240001"] = "7320240002" := by
  refine ⟨fun u t y => rfl, fun u t y a => rfl, by decide, by decide⟩

/-- C9: creating an account for a (user, account-type) pair that already
has one fails with `DuplicateError` and changes nothing, and every store
reachable from the empty store by creation requests holds at most one
account per pair. -/
theorem account_uniqueness :
    (∀ store u t, (u, t) ∈ store →
        createAccount store u t = (store, .error .duplicate)) ∧
    (∀ store, ReachableStore store →
        ∀ u t, store.count (u, t) ≤ 1) := by
  constructor
  · intro store u t hmem
    unfold createAccount
    rw [if_pos hmem]
  · intro store hr
    induction hr with
    | init => intro u t; simp
    | createStep store u' t' _ ih =>
        intro u t
        unfold createAccount
        split
        · exact ih u t
        · next hnot =>
            rw [List.count_append]
            by_cases he : (u, t) = (u', t')
            · have h0 : store.count (u, t) = 0 :=
                List.count_eq_zero.mpr (he ▸ hnot)
              rw [he] at h0 ⊢
              simp [h0]
            · have h1 : List.count (u, t) [(u', t')] = 0 :=
                List.count_eq_zero.mpr (by simp [he])
              rw [h1]
              simpa using ih u t

theorem account_uniqueness_witness :
    createAccount [(5, 2)] 5 2 = ([(5, 2)], .error .duplicate) ∧
    List.count (5, 2) (createAccount [] 5 2).1 ≤ 1 := by
  refine ⟨account_uniqueness.1 [(5, 2)] 5 2 (by decide), ?_⟩
  exact account_uniqueness.2 _
    (ReachableStore.createStep [] 5 2 ReachableStore.init) 5 2

/-- C10: `total_balance` of the date-range report sums the raw amount of
every matched transaction identically for debits and credits — flipping
every transaction's type leaves the report unchanged — it equals 0 when
no transaction matches, and on a credit of 100.00 and a debit of 50.00
inside the range it reports 150.00 (no sign netting). -/
theorem range_report_sum :
    (∀ txs uid s e, totalBalance (txs.map flipRec) uid s e =
        totalBalance txs uid s e) ∧
    (∀ txs uid s e, txs.filter (matchesQuery uid s e) = [] →
        totalBalance txs uid s e = 0) ∧
    totalBalance [⟨1, 10000, .credit, 8⟩, ⟨1, 5000, .debit, 9⟩] 1 7 10
      = 15000 := by
  refine ⟨fun txs uid s e => ?_, fun txs uid s e h => ?_, by decide⟩
  · induction txs with
    | nil => rfl
    | cons r rs ih =>
        have hm : matchesQuery uid s e (flipRec r) = matchesQuery uid s e r := by
          simp [matchesQuery, flipRec]
        simp only [List.map_cons, totalBalance, List.filter_cons, hm] at *
        split
        · simpa [flipRec] using ih
        · exact ih
  · simp [totalBalance, h]

theorem range_report_sum_witness :
    totalBalance [⟨2, 10000, TxType.credit, 99⟩] 1 7 10 = 0 :=
  range_report_sum.2.1 [⟨2, 10000, TxType.credit, 99⟩] 1 7 10 rfl

end InvestAccounts
